import Mathlib

/-!
Verification development for the ShelfSignals digital-receipt subsystem
(`docs/js/receipt.js`): canonical JSON serialization, receipt building and
verification, and the base64url URL-fragment transport codec.

The JavaScript value universe is embedded as the inductive type `JVal`.
Finite numbers are modelled as the integer-valued doubles (the only numeric
values this domain produces); non-finite numbers (`NaN`, `±Infinity`) get
their own constructors.  The WebCrypto SHA-256 digest is an external
primitive and is modelled as an explicit function parameter `H : String →
String`, exactly as `fetch` (the dataset-hash collaborator) and
`JSON.parse` (on the decode path) are passed as parameters.
-/

set_option maxRecDepth 100000

/-- Model of a JavaScript number: `NaN`, `±Infinity`, or a finite value.
Finite values are restricted to the integer-valued doubles; every integer
of magnitude at most 2^53 is exactly representable, so on that range the
model is exact. -/
inductive JSNum where
  | nan : JSNum
  | posInf : JSNum
  | negInf : JSNum
  | int : Int → JSNum
deriving DecidableEq, Repr

/-- Model of a JavaScript value as seen by `canonicalStringify`:
`null`, `undefined`, booleans, numbers, strings, arrays, plain objects
(association list of own enumerable string keys, in insertion order), and
`other` for the remaining typeof classes (function, symbol, bigint), which
fall through every branch of the serializer. -/
inductive JVal where
  | null : JVal
  | undef : JVal
  | bool : Bool → JVal
  | num : JSNum → JVal
  | str : String → JVal
  | arr : List JVal → JVal
  | obj : List (String × JVal) → JVal
  | other : String → JVal

/-- Decimal digit character. -/
def decDigit (n : Nat) : Char :=
  match n with
  | 0 => '0' | 1 => '1' | 2 => '2' | 3 => '3' | 4 => '4'
  | 5 => '5' | 6 => '6' | 7 => '7' | 8 => '8' | _ => '9'

/-- Fuel-driven digit accumulation; the fuel only bounds the recursion
depth and `natDigits` always passes enough of it. -/
def natDigitsAux : Nat → Nat → List Char
  | 0, n => [decDigit n]
  | fuel + 1, n =>
      if n < 10 then [decDigit n]
      else natDigitsAux fuel (n / 10) ++ [decDigit (n % 10)]

/-- Decimal digit list of a natural number, most significant first. -/
def natDigits (n : Nat) : List Char := natDigitsAux n n

/-- Decimal string of a natural number. -/
def natDecimal (n : Nat) : String := String.mk (natDigits n)

/-- Plain (non-exponential) decimal rendering of an integer, as JavaScript
`String(n)` renders integer doubles of magnitude below 10^21. -/
def plainIntString (i : Int) : String :=
  (if i < 0 then "-" else "") ++ natDecimal i.natAbs

/-- Trailing zeros removed (used by the exponential form). -/
def dropTrailingZeros (l : List Char) : List Char :=
  (l.reverse.dropWhile (fun c => c = '0')).reverse

/-- Exponential rendering `d.dddde+NN` of an integer, as JavaScript
`String(n)` renders integer doubles of magnitude 10^21 and above
(ECMAScript `Number::toString`, case `n > 21`). -/
def expIntString (i : Int) : String :=
  let ds := natDigits i.natAbs
  let sig := dropTrailingZeros ds
  let mantissa :=
    match sig with
    | [] => "0"
    | [d] => String.mk [d]
    | d :: rest => String.mk (d :: '.' :: rest)
  (if i < 0 then "-" else "") ++ mantissa ++ "e+" ++ natDecimal (ds.length - 1)

/-- JavaScript `String(n)` on an integer-valued double, following
ECMAScript `Number::toString`: plain decimal while the decimal exponent
stays at 21 digits or below (for integers: magnitude below 10^21),
exponential form above. -/
def jsNumToString (i : Int) : String :=
  if i.natAbs < 10 ^ 21 then plainIntString i else expIntString i

/-- Rendering of a number by `canonicalStringify` (receipt.js lines 28-34):
non-finite values render as the literal `null`, finite values via
`String(obj)`. -/
def jsNumCanon : JSNum → String
  | JSNum.nan => "null"
  | JSNum.posInf => "null"
  | JSNum.negInf => "null"
  | JSNum.int i => jsNumToString i

/-- Lowercase hexadecimal digit character. -/
def hexDigitChar (n : Nat) : Char :=
  match n with
  | 0 => '0' | 1 => '1' | 2 => '2' | 3 => '3' | 4 => '4'
  | 5 => '5' | 6 => '6' | 7 => '7' | 8 => '8' | 9 => '9'
  | 10 => 'a' | 11 => 'b' | 12 => 'c' | 13 => 'd' | 14 => 'e' | _ => 'f'

/-- Escape sequence of one character under `JSON.stringify` string
serialization: quote and backslash escaped, the named control escapes, a
`u00xx` escape for remaining control characters, everything else passed
through. -/
def escapeChar (c : Char) : List Char :=
  if c = '"' then ['\\', '"']
  else if c = '\\' then ['\\', '\\']
  else if c = '\x08' then ['\\', 'b']
  else if c = '\x09' then ['\\', 't']
  else if c = '\x0a' then ['\\', 'n']
  else if c = '\x0c' then ['\\', 'f']
  else if c = '\x0d' then ['\\', 'r']
  else if c.toNat < 0x20 then
    ['\\', 'u', '0', '0', hexDigitChar (c.toNat / 16), hexDigitChar (c.toNat % 16)]
  else [c]

/-- JavaScript `JSON.stringify` applied to a string value. -/
def jsonQuote (s : String) : String :=
  String.mk ('"' :: (s.data.map escapeChar).flatten ++ ['"'])

/-- UTF-16 code units of one Unicode scalar value. -/
def utf16Char (c : Char) : List Nat :=
  if c.toNat < 0x10000 then [c.toNat]
  else [0xD800 + (c.toNat - 0x10000) / 0x400, 0xDC00 + (c.toNat - 0x10000) % 0x400]

/-- UTF-16 code unit sequence of a string. -/
def utf16 (s : String) : List Nat := (s.data.map utf16Char).flatten

/-- Strict lexicographic order on code-unit sequences; a proper prefix is
smaller. -/
def lexLt : List Nat → List Nat → Bool
  | [], [] => false
  | [], _ :: _ => true
  | _ :: _, [] => false
  | a :: as, b :: bs => if a < b then true else if b < a then false else lexLt as bs

/-- JavaScript string comparison `s < t`: lexicographic on UTF-16 code
units.  This is the order used by `Array.prototype.sort()` with the
default comparator, hence by `Object.keys(obj).sort()` in
`canonicalStringify`. -/
def u16Lt (s t : String) : Bool := lexLt (utf16 s) (utf16 t)

/-- Sort relation on (key, rendered value) entries: key of the first not
greater than key of the second in UTF-16 code-unit order. -/
def keyLe (p₁ p₂ : String × String) : Prop := u16Lt p₂.1 p₁.1 = false

instance : DecidableRel keyLe := fun p₁ p₂ => instDecidableEqBool (u16Lt p₂.1 p₁.1) false

/-- One serialized object member, `"key":value`. -/
def renderEntry (p : String × String) : String := jsonQuote p.1 ++ ":" ++ p.2

mutual

/-- Model of `canonicalStringify` (receipt.js lines 19-55).  Object keys
are sorted with `Object.keys(obj).sort()`; because sorting compares keys
only and a JavaScript object cannot carry duplicate keys, sorting the
(key, rendered value) entries by key with a stable sort is the same
function.  Unsupported typeof classes fall through to the final
`return 'null'` (line 54). -/
def canonicalStringify : JVal → String
  | JVal.null => "null"
  | JVal.undef => "null"
  | JVal.bool b => cond b "true" "false"
  | JVal.num n => jsNumCanon n
  | JVal.str s => jsonQuote s
  | JVal.arr xs =>
      "[" ++ String.intercalate "," (canonItems xs) ++ "]"
  | JVal.obj fs =>
      "\x7b" ++ String.intercalate ","
        ((List.insertionSort keyLe (canonEntries fs)).map renderEntry)
        ++ "\x7d"
  | JVal.other _ => "null"

/-- Rendered elements of an array, in order (the `obj.map` of line 41). -/
def canonItems : List JVal → List String
  | [] => []
  | v :: vs => canonicalStringify v :: canonItems vs

/-- Keys paired with rendered values for an object's members, in
insertion order (lines 46-50 before sorting). -/
def canonEntries : List (String × JVal) → List (String × String)
  | [] => []
  | (k, v) :: ps => (k, canonicalStringify v) :: canonEntries ps

end

/-- SHA-256 over the canonical serialization (receipt.js lines 60-67).
The WebCrypto digest primitive is external; it enters the model as the
function parameter `H`, a fixed map from the canonical string to its hex
digest. -/
def hashCanonicalJSON (H : String → String) (v : JVal) : String :=
  H (canonicalStringify v)

/-- JavaScript truthiness of a value. -/
def jsTruthy : JVal → Bool
  | JVal.null => false
  | JVal.undef => false
  | JVal.bool b => b
  | JVal.num JSNum.nan => false
  | JVal.num JSNum.posInf => true
  | JVal.num JSNum.negInf => true
  | JVal.num (JSNum.int i) => i != 0
  | JVal.str s => s != ""
  | JVal.arr _ => true
  | JVal.obj _ => true
  | JVal.other _ => true

/-- Property access `v.key`: lookup on an object, `undefined` on anything
else (no string index or length properties are involved here). -/
def jsGet (v : JVal) (key : String) : JVal :=
  match v with
  | JVal.obj fs => (fs.lookup key).getD JVal.undef
  | _ => JVal.undef

/-- The mapping `item => item.id || item` from createReceipt line 140. -/
def itemId (item : JVal) : JVal :=
  let v := jsGet item "id"
  if jsTruthy v then v else item

/-- Options of `createReceipt` after destructuring defaults (receipt.js
lines 111-118).  `datasetUrl` is `none` for the default `null`. -/
structure ReceiptOptions where
  mode : JVal
  items : List JVal
  filters : JVal
  datasetName : String
  datasetUrl : Option String
  appVersion : String

/-- Index hash resolution (receipt.js lines 120-124): stays
`"not-computed"` unless a truthy `datasetUrl` is given, in which case the
external fetch-and-digest collaborator `fetchHash` supplies it (that
collaborator already degrades to `"unavailable"` internally on fetch
failure). -/
def computeIndexHash (fetchHash : String → String) : Option String → String
  | none => "not-computed"
  | some url => if url = "" then "not-computed" else fetchHash url

/-- Payload fields assembled by `createReceipt` before hashing
(receipt.js lines 126-142), in insertion order. -/
def payloadFields (fetchHash : String → String) (opts : ReceiptOptions)
    (createdAt : String) : List (String × JVal) :=
  [("schema", JVal.str "shelfsignals-receipt@1"),
   ("createdAt", JVal.str createdAt),
   ("app", JVal.obj [("name", JVal.str "ShelfSignals"),
                     ("channel", JVal.str "preview"),
                     ("version", JVal.str opts.appVersion)]),
   ("dataset", JVal.obj [("name", JVal.str opts.datasetName),
                         ("indexHash",
                          JVal.str (computeIndexHash fetchHash opts.datasetUrl))]),
   ("mode", opts.mode),
   ("items", JVal.arr (opts.items.map itemId)),
   ("filters", opts.filters)]

/-- Model of `createReceipt` (receipt.js lines 110-158).  The impure
inputs are explicit: `H` is the digest primitive, `fetchHash` the dataset
fetch collaborator, `createdAt` the `new Date().toISOString()` value, and
`receiptId` the value of `generateReceiptID()`. -/
def createReceipt (H fetchHash : String → String) (opts : ReceiptOptions)
    (createdAt receiptId : String) : JVal :=
  let fields := payloadFields fetchHash opts createdAt
  JVal.obj (fields ++
    [("hash", JVal.obj [("alg", JVal.str "sha256"),
                        ("value", JVal.str (hashCanonicalJSON H (JVal.obj fields)))]),
     ("receiptId", JVal.str receiptId)])

/-- Result record of `verifyReceipt`.  The source returns an object with
`valid`/`reason` always present and `computedHash`/`providedHash` present
only on the non-early-return path, modelled here with `Option`. -/
structure VerifyResult where
  valid : Bool
  reason : String
  computedHash : Option String
  providedHash : Option JVal

/-- Strict equality `computedHash === hash.value`, where the left side is
the freshly computed hex string and the right side is an untrusted value:
true exactly when the right side is the same string. -/
def jsStrictEqStr (s : String) (v : JVal) : Bool :=
  match v with
  | JVal.str t => s == t
  | _ => false

/-- Rest-destructuring `const (hash, receiptId, ...payload) = receipt`
on the key list: every field except `hash` and `receiptId`, in order. -/
def stripHashFields (fs : List (String × JVal)) : List (String × JVal) :=
  fs.filter (fun p => (p.1 != "hash") && (p.1 != "receiptId"))

/-- Payload reconstructed by the verifier.  The non-object branch is
unreachable behind the truthiness guard (a primitive has no truthy `hash`
property), and rest-destructuring a guard-passing non-object would give an
empty object. -/
def verifyPayload (receipt : JVal) : JVal :=
  match receipt with
  | JVal.obj fs => JVal.obj (stripHashFields fs)
  | _ => JVal.obj []

/-- Model of `verifyReceipt` (receipt.js lines 163-183).  The guard
mirrors `!receipt || !receipt.hash || !receipt.hash.value`. -/
def verifyReceipt (H : String → String) (receipt : JVal) : VerifyResult :=
  if jsTruthy receipt && jsTruthy (jsGet receipt "hash")
      && jsTruthy (jsGet (jsGet receipt "hash") "value") then
    let payload := verifyPayload receipt
    let computed := hashCanonicalJSON H payload
    let provided := jsGet (jsGet receipt "hash") "value"
    let valid := jsStrictEqStr computed provided
    { valid := valid,
      reason := if valid then "Hash verified" else "Hash mismatch",
      computedHash := some computed,
      providedHash := some provided }
  else
    { valid := false, reason := "Missing hash",
      computedHash := none, providedHash := none }

/-- Assignment `receipt.key = newVal` to an existing own property:
replaces the value in place, key order unchanged. -/
def setField (v : JVal) (key : String) (newVal : JVal) : JVal :=
  match v with
  | JVal.obj fs => JVal.obj (fs.map (fun p => if p.1 = key then (p.1, newVal) else p))
  | w => w

/-- Standard base64 alphabet, as indexed by `btoa`/`atob`. -/
def b64Alphabet : List Char :=
  "ABCDEFGHIJKLMNOPQRSTUVWXYZabcdefghijklmnopqrstuvwxyz0123456789+/".toList

/-- Character for a sextet value. -/
def sextetChar (n : Nat) : Char := b64Alphabet.getD n 'A'

/-- Sextet value of a character, `none` outside the alphabet. -/
def charSextet (c : Char) : Option Nat := b64Alphabet.findIdx? (fun d => d = c)

/-- Model of `btoa` applied to a binary string whose code units are the
given bytes (receipt.js lines 234-239): standard base64 with `=`
padding. -/
def encodeB64 : List Nat → List Char
  | [] => []
  | [a] => [sextetChar (a / 4), sextetChar (a % 4 * 16), '=', '=']
  | [a, b] => [sextetChar (a / 4), sextetChar (a % 4 * 16 + b / 16),
               sextetChar (b % 16 * 4), '=']
  | a :: b :: c :: rest =>
      sextetChar (a / 4) :: sextetChar (a % 4 * 16 + b / 16) ::
      sextetChar (b % 16 * 4 + c / 64) :: sextetChar (c % 64) :: encodeB64 rest

/-- Global single-character replacement, as the `replace(/x/g, "y")`
calls in the codec. -/
def replaceChar (a b : Char) (l : List Char) : List Char :=
  l.map (fun c => if c = a then b else c)

/-- Byte-level encode of `encodeReceiptToFragment` (receipt.js lines
228-241): base64, then `+`→`-`, `/`→`_`, and `=` removed. -/
def encodeBytesToFragment (bytes : List Nat) : List Char :=
  (replaceChar '/' '_' (replaceChar '+' '-' (encodeB64 bytes))).filter (fun c => c != '=')

/-- ASCII whitespace, which `atob` strips before decoding. -/
def isB64WS (c : Char) : Bool :=
  c = '\x09' || c = '\x0a' || c = '\x0c' || c = '\x0d' || c = ' '

/-- Removal of up to two trailing `=` characters (forgiving-base64
step 2). -/
def dropTrailingEq (l : List Char) : List Char :=
  if l.getLast? = some '=' then
    let l2 := l.dropLast
    if l2.getLast? = some '=' then l2.dropLast else l2
  else l

/-- Byte reassembly from sextets; a final group of two or three sextets
contributes one or two bytes, the leftover low bits being discarded. -/
def sextetsToBytes : List Nat → List Nat
  | a :: b :: c :: d :: rest =>
      (a * 4 + b / 16) :: (b % 16 * 16 + c / 4) :: (c % 4 * 64 + d) :: sextetsToBytes rest
  | [a, b] => [a * 4 + b / 16]
  | [a, b, c] => [a * 4 + b / 16, b % 16 * 16 + c / 4]
  | _ => []

/-- Model of `atob` (the WHATWG forgiving-base64 decode): strip ASCII
whitespace; if the length is a multiple of four, drop up to two trailing
`=`; fail when the remaining length is 1 mod 4 or any remaining character
is outside the base64 alphabet; otherwise reassemble bytes. -/
def atobModel (input : List Char) : Option (List Nat) :=
  let s1 := input.filter (fun c => !isB64WS c)
  let s2 := if s1.length % 4 = 0 then dropTrailingEq s1 else s1
  if s2.length % 4 = 1 then none
  else if s2.any (fun c => (charSextet c).isNone) then none
  else some (sextetsToBytes (s2.filterMap charSextet))

/-- Byte-level decode of `decodeReceiptFromFragment` (receipt.js lines
246-263): `-`→`+`, `_`→`/`, re-pad to a multiple of four with `=`, then
`atob`; any failure is caught and surfaced as `none`. -/
def decodeFragmentBytes (fragment : List Char) : Option (List Nat) :=
  let base64 := replaceChar '_' '/' (replaceChar '-' '+' fragment)
  let padded := base64 ++ List.replicate ((4 - base64.length % 4) % 4) '='
  atobModel padded

/-- Model of the full `decodeReceiptFromFragment`: the byte-level decode
composed with the external `TextDecoder` + `JSON.parse` stage, passed in
as `parse` (total on bytes, `none` exactly when `JSON.parse` throws; the
surrounding try/catch maps any failure to `null`). -/
def decodeReceiptFromFragment (parse : List Nat → Option JVal)
    (fragment : List Char) : Option JVal :=
  (decodeFragmentBytes fragment).bind parse

/-- Entry list of an object as sorted and rendered by
`canonicalStringify`. -/
def sortEntries (fs : List (String × JVal)) : List (String × String) :=
  List.insertionSort keyLe (fs.map (fun p => (p.1, canonicalStringify p.2)))

/-- Strict key order on rendered entries (UTF-16 code-unit order). -/
def keyLt (p₁ p₂ : String × String) : Prop := u16Lt p₁.1 p₂.1 = true

/-- Character-level effect of the encoder's two replacements `+`→`-`,
`/`→`_` applied in sequence. -/
def urlEncChar (c : Char) : Char :=
  let c1 := if c = '+' then '-' else c
  if c1 = '/' then '_' else c1

/-- Character-level effect of the decoder's two replacements `-`→`+`,
`_`→`/` applied in sequence. -/
def urlDecChar (c : Char) : Char :=
  let c1 := if c = '-' then '+' else c
  if c1 = '_' then '/' else c1

theorem canonItems_eq_map (xs : List JVal) :
    canonItems xs = xs.map canonicalStringify := by
  induction xs with
  | nil => rfl
  | cons v vs ih => simp only [canonItems, List.map_cons, ih]

theorem canonEntries_eq_map (fs : List (String × JVal)) :
    canonEntries fs = fs.map (fun p => (p.1, canonicalStringify p.2)) := by
  induction fs with
  | nil => rfl
  | cons p ps ih =>
      cases p
      simp only [canonEntries, List.map_cons, ih]

theorem canonicalStringify_arr (xs : List JVal) :
    canonicalStringify (JVal.arr xs)
      = "[" ++ String.intercalate "," (xs.map canonicalStringify) ++ "]" := by
  rw [canonicalStringify, canonItems_eq_map]

theorem canonicalStringify_obj (fs : List (String × JVal)) :
    canonicalStringify (JVal.obj fs)
      = "\x7b" ++ String.intercalate "," ((sortEntries fs).map renderEntry) ++ "\x7d" := by
  rw [canonicalStringify, sortEntries, canonEntries_eq_map]

theorem lexLt_asymm : ∀ x y : List Nat, lexLt x y = true → lexLt y x = false
  | [], [], h => by cases h
  | [], _ :: _, _ => rfl
  | _ :: _, [], h => by cases h
  | a :: as, b :: bs, h => by
      simp only [lexLt] at h ⊢
      rcases Nat.lt_trichotomy a b with hab | hab | hab
      · have : ¬ b < a := by omega
        simp [this, hab]
      · subst hab
        simp only [lt_self_iff_false, if_false] at h ⊢
        exact lexLt_asymm as bs h
      · simp [hab, Nat.not_lt_of_lt hab] at h

theorem lexLt_eq_of_not_lt : ∀ x y : List Nat,
    lexLt x y = false → lexLt y x = false → x = y
  | [], [], _, _ => rfl
  | [], _ :: _, h, _ => by cases h
  | _ :: _, [], _, h => by cases h
  | a :: as, b :: bs, h1, h2 => by
      simp only [lexLt] at h1 h2
      rcases Nat.lt_trichotomy a b with hab | hab | hab
      · simp [hab] at h1
      · subst hab
        simp only [lt_self_iff_false, if_false] at h1 h2
        rw [lexLt_eq_of_not_lt as bs h1 h2]
      · simp [hab] at h2

theorem lexLt_trans : ∀ x y z : List Nat,
    lexLt x y = true → lexLt y z = true → lexLt x z = true
  | [], [], _, h1, _ => by cases h1
  | [], _ :: _, [], _, h2 => by cases h2
  | [], _ :: _, _ :: _, _, _ => rfl
  | _ :: _, [], _, h1, _ => by cases h1
  | _ :: _, _ :: _, [], _, h2 => by cases h2
  | a :: as, b :: bs, c :: cs, h1, h2 => by
      simp only [lexLt] at h1 h2 ⊢
      rcases Nat.lt_trichotomy a b with hab | hab | hab
      · rcases Nat.lt_trichotomy b c with hbc | hbc | hbc
        · have hac : a < c := by omega
          simp [hac]
        · subst hbc
          simp [hab]
        · have hnbc : ¬ b < c := by omega
          simp [hnbc, hbc] at h2
      · subst hab
        simp only [lt_self_iff_false, if_false] at h1
        rcases Nat.lt_trichotomy a c with hac | hac | hac
        · simp [hac]
        · subst hac
          simp only [lt_self_iff_false, if_false] at h2 ⊢
          exact lexLt_trans as bs cs h1 h2
        · have hnac : ¬ a < c := by omega
          simp [hnac, hac] at h2
      · have hnab : ¬ a < b := by omega
        simp [hnab, hab] at h1

theorem char_toNat_inj {a b : Char} (h : a.toNat = b.toNat) : a = b :=
  Char.eq_of_val_eq (UInt32.ext h)

theorem char_valid_range (c : Char) :
    c.toNat < 0xd800 ∨ (0xdfff < c.toNat ∧ c.toNat < 0x110000) := by
  have h := c.valid
  unfold UInt32.isValidChar Nat.isValidChar at h
  exact h

theorem utf16Char_ne_nil (c : Char) : utf16Char c ≠ [] := by
  unfold utf16Char
  split <;> simp

theorem utf16Char_append_inj {c₁ c₂ : Char} {r₁ r₂ : List Nat}
    (h : utf16Char c₁ ++ r₁ = utf16Char c₂ ++ r₂) : c₁ = c₂ ∧ r₁ = r₂ := by
  have v₁ := char_valid_range c₁
  have v₂ := char_valid_range c₂
  unfold utf16Char at h
  by_cases h₁ : c₁.toNat < 0x10000 <;> by_cases h₂ : c₂.toNat < 0x10000 <;>
    simp only [h₁, h₂, if_true, if_false, ite_true, ite_false,
      List.cons_append, List.nil_append, List.cons.injEq] at h
  · exact ⟨char_toNat_inj h.1, h.2⟩
  · exact absurd h.1 (by omega)
  · exact absurd h.1 (by omega)
  · refine ⟨char_toNat_inj ?_, h.2.2⟩
    have ha := h.1
    have hb := h.2.1
    omega

theorem utf16List_inj : ∀ l₁ l₂ : List Char,
    (l₁.map utf16Char).flatten = (l₂.map utf16Char).flatten → l₁ = l₂
  | [], [], _ => rfl
  | [], c :: _, h => by
      simp only [List.map_nil, List.flatten_nil, List.map_cons, List.flatten_cons] at h
      cases hc : utf16Char c with
      | nil => exact absurd hc (utf16Char_ne_nil c)
      | cons a as => rw [hc] at h; cases h
  | c :: _, [], h => by
      simp only [List.map_nil, List.flatten_nil, List.map_cons, List.flatten_cons] at h
      cases hc : utf16Char c with
      | nil => exact absurd hc (utf16Char_ne_nil c)
      | cons a as => rw [hc] at h; cases h
  | c₁ :: cs₁, c₂ :: cs₂, h => by
      simp only [List.map_cons, List.flatten_cons] at h
      obtain ⟨hc, hr⟩ := utf16Char_append_inj h
      rw [hc, utf16List_inj cs₁ cs₂ hr]

theorem utf16_inj {s t : String} (h : utf16 s = utf16 t) : s = t := by
  have hd : s.data = t.data := utf16List_inj s.data t.data h
  cases s
  cases t
  exact congrArg String.mk hd

instance : IsTotal (String × String) keyLe :=
  ⟨fun p q => by
    unfold keyLe
    cases hpq : u16Lt q.1 p.1
    · exact Or.inl rfl
    · refine Or.inr ?_
      unfold u16Lt at hpq ⊢
      exact lexLt_asymm _ _ hpq⟩

instance : IsTrans (String × String) keyLe :=
  ⟨fun p q r' hpq hqr' => by
    unfold keyLe u16Lt at hpq hqr' ⊢
    cases hrp : lexLt (utf16 r'.1) (utf16 p.1)
    · rfl
    · cases hpq2 : lexLt (utf16 p.1) (utf16 q.1)
      · have heq := lexLt_eq_of_not_lt _ _ hpq2 hpq
        rw [← heq] at hqr'
        rw [hqr'] at hrp
        cases hrp
      · have := lexLt_trans _ _ _ hrp hpq2
        rw [this] at hqr'
        cases hqr'⟩

instance : IsAntisymm (String × String) keyLt :=
  ⟨fun p q h1 h2 => by
    unfold keyLt u16Lt at h1 h2
    have := lexLt_asymm _ _ h1
    rw [h2] at this
    cases this⟩

theorem keyLt_of_keyLe_of_ne {p q : String × String}
    (hle : keyLe p q) (hne : p.1 ≠ q.1) : keyLt p q := by
  unfold keyLe u16Lt at hle
  unfold keyLt u16Lt
  cases hpq : lexLt (utf16 p.1) (utf16 q.1)
  · exact absurd (utf16_inj (lexLt_eq_of_not_lt _ _ hpq hle)) hne
  · rfl

theorem sortEntries_perm (fs : List (String × JVal)) :
    (sortEntries fs).Perm (fs.map (fun p => (p.1, canonicalStringify p.2))) :=
  List.perm_insertionSort keyLe _

theorem sortEntries_sorted (fs : List (String × JVal)) :
    List.Sorted keyLe (sortEntries fs) :=
  List.sorted_insertionSort keyLe _

theorem sortEntries_fst_perm (fs : List (String × JVal)) :
    ((sortEntries fs).map Prod.fst).Perm (fs.map Prod.fst) := by
  have h := (sortEntries_perm fs).map Prod.fst
  rw [List.map_map] at h
  exact h

theorem sortEntries_sorted_lt (fs : List (String × JVal))
    (hnd : (fs.map Prod.fst).Nodup) : List.Sorted keyLt (sortEntries fs) := by
  have hle := sortEntries_sorted fs
  have hnd2 : ((sortEntries fs).map Prod.fst).Nodup :=
    (sortEntries_fst_perm fs).nodup_iff.mpr hnd
  have hpne : (sortEntries fs).Pairwise (fun p q => p.1 ≠ q.1) :=
    (List.pairwise_map).mp hnd2
  exact (hle.and hpne).imp (fun h => keyLt_of_keyLe_of_ne h.1 h.2)

theorem sortEntries_eq_of_perm {l₁ l₂ : List (String × JVal)}
    (hp : l₁.Perm l₂) (hnd : (l₁.map Prod.fst).Nodup) :
    sortEntries l₁ = sortEntries l₂ := by
  have hnd₂ : (l₂.map Prod.fst).Nodup := ((hp.map Prod.fst).nodup_iff).mp hnd
  have hperm : (sortEntries l₁).Perm (sortEntries l₂) :=
    (sortEntries_perm l₁).trans
      ((hp.map (fun p => (p.1, canonicalStringify p.2))).trans (sortEntries_perm l₂).symm)
  exact List.eq_of_perm_of_sorted hperm
    (sortEntries_sorted_lt l₁ hnd) (sortEntries_sorted_lt l₂ hnd₂)

/-- C1 (amended): canonical serialization is order-insensitive for
mappings: permuting the members of a duplicate-free mapping leaves the
output unchanged.  The keys of every mapping appear sorted ascending by
UTF-16 code-unit order — the order of the source's
`Object.keys(obj).sort()`, which agrees with ordinal/codepoint order
except when keys outside the basic multilingual plane are involved — each
entry rendered as `"key":value`, entries comma-joined and
brace-delimited, the empty mapping rendering as a bare brace pair. -/
theorem claim_C1_canonical_mapping_order_insensitive :
    (∀ l₁ l₂ : List (String × JVal), (l₁.map Prod.fst).Nodup → l₁.Perm l₂ →
        canonicalStringify (JVal.obj l₁) = canonicalStringify (JVal.obj l₂))
    ∧ (∀ fs : List (String × JVal),
        canonicalStringify (JVal.obj fs)
          = "\x7b" ++ String.intercalate "," ((sortEntries fs).map renderEntry) ++ "\x7d"
        ∧ List.Sorted keyLe (sortEntries fs))
    ∧ canonicalStringify (JVal.obj []) = "\x7b\x7d" := by
  refine ⟨?_, fun fs => ⟨canonicalStringify_obj fs, sortEntries_sorted fs⟩, by decide⟩
  intro l₁ l₂ hnd hp
  rw [canonicalStringify_obj, canonicalStringify_obj, sortEntries_eq_of_perm hp hnd]

theorem claim_C1_witness :
    (([("b", JVal.null), ("a", JVal.bool true)].map Prod.fst).Nodup
      ∧ ([("b", JVal.null), ("a", JVal.bool true)] :
          List (String × JVal)).Perm [("a", JVal.bool true), ("b", JVal.null)])
    ∧ canonicalStringify (JVal.obj [("b", JVal.null), ("a", JVal.bool true)])
        = canonicalStringify (JVal.obj [("a", JVal.bool true), ("b", JVal.null)]) :=
  ⟨⟨by decide, List.Perm.swap _ _ _⟩,
    claim_C1_canonical_mapping_order_insensitive.1 _ _ (by decide) (List.Perm.swap _ _ _)⟩

theorem createReceipt_hash_value (H fetchHash : String → String)
    (opts : ReceiptOptions) (createdAt receiptId : String) :
    jsGet (jsGet (createReceipt H fetchHash opts createdAt receiptId) "hash") "value"
      = JVal.str (hashCanonicalJSON H (JVal.obj (payloadFields fetchHash opts createdAt))) :=
  rfl

theorem verifyPayload_createReceipt (H fetchHash : String → String)
    (opts : ReceiptOptions) (createdAt receiptId : String) :
    verifyPayload (createReceipt H fetchHash opts createdAt receiptId)
      = JVal.obj (payloadFields fetchHash opts createdAt) :=
  rfl

/-- C2: build-then-verify round trip.  For every digest function, fetch
collaborator, options, timestamp and receipt id, verifying the receipt
returned by `createReceipt` unmodified yields `valid = true`.  The single
hypothesis records that the digest primitive never returns the empty
string (a SHA-256 hex digest has 64 characters); without it the empty
digest would be caught by the verifier's falsy-value guard. -/
theorem claim_C2_build_then_verify
    (H fetchHash : String → String) (opts : ReceiptOptions) (createdAt receiptId : String)
    (hH : H (canonicalStringify (JVal.obj (payloadFields fetchHash opts createdAt))) ≠ "") :
    (verifyReceipt H (createReceipt H fetchHash opts createdAt receiptId)).valid = true := by
  have hguard : jsTruthy (jsGet (jsGet (createReceipt H fetchHash opts createdAt receiptId)
      "hash") "value") = true := by
    show (H (canonicalStringify (JVal.obj (payloadFields fetchHash opts createdAt))) != "")
        = true
    simpa [bne_iff_ne] using hH
  have h1 : jsTruthy (createReceipt H fetchHash opts createdAt receiptId) = true := rfl
  have h2 : jsTruthy (jsGet (createReceipt H fetchHash opts createdAt receiptId) "hash")
      = true := rfl
  rw [verifyReceipt, h1, h2, hguard]
  simp only [Bool.and_self, if_true]
  show jsStrictEqStr (hashCanonicalJSON H (JVal.obj (payloadFields fetchHash opts createdAt)))
      (JVal.str (hashCanonicalJSON H (JVal.obj (payloadFields fetchHash opts createdAt)))) = true
  simp [jsStrictEqStr]

theorem claim_C2_witness :
    (id (canonicalStringify (JVal.obj (payloadFields (fun _ => "unavailable")
        ⟨JVal.str "shelf", [JVal.str "id-1", JVal.str "id-2"],
         JVal.obj [("search_query", JVal.str "labor"),
                   ("active_signals", JVal.arr [JVal.str "labor", JVal.str "sea"])],
         "Test Collection", none, "v2.x"⟩ "2024-01-01T00:00:00Z"))) ≠ "")
    ∧ (verifyReceipt id (createReceipt id (fun _ => "unavailable")
        ⟨JVal.str "shelf", [JVal.str "id-1", JVal.str "id-2"],
         JVal.obj [("search_query", JVal.str "labor"),
                   ("active_signals", JVal.arr [JVal.str "labor", JVal.str "sea"])],
         "Test Collection", none, "v2.x"⟩ "2024-01-01T00:00:00Z"
        "SS-AAAA-BBBB-CCCC")).valid = true :=
  ⟨by decide, claim_C2_build_then_verify id (fun _ => "unavailable") _ _ _ (by decide)⟩

/-- C5: hash-exclusion invariant.  Builder side: the stored `hash.value`
equals the digest of the canonical form of the receipt with the `hash`
and `receiptId` fields removed (so the digest never covers its own
value).  Verifier side: for any candidate object passing the hash guard,
the recomputed digest reported in the result is taken over the candidate
with exactly the `hash` and `receiptId` fields removed. -/
theorem claim_C5_hash_exclusion
    (H fetchHash : String → String) (opts : ReceiptOptions) (createdAt receiptId : String)
    (cand : List (String × JVal))
    (hguard : jsTruthy (jsGet (jsGet (JVal.obj cand) "hash") "value") = true) :
    jsGet (jsGet (createReceipt H fetchHash opts createdAt receiptId) "hash") "value"
      = JVal.str (H (canonicalStringify
          (verifyPayload (createReceipt H fetchHash opts createdAt receiptId))))
    ∧ (verifyReceipt H (JVal.obj cand)).computedHash
      = some (H (canonicalStringify (JVal.obj (stripHashFields cand)))) := by
  constructor
  · rfl
  · have h2 : jsTruthy (jsGet (JVal.obj cand) "hash") = true := by
      cases hh : jsGet (JVal.obj cand) "hash" <;>
        rw [hh] at hguard <;> first | rfl | cases hguard
    have h1 : jsTruthy (JVal.obj cand) = true := rfl
    rw [verifyReceipt, h1, h2, hguard]
    simp only [Bool.and_self, if_true]
    rfl

theorem claim_C5_witness :
    jsTruthy (jsGet (jsGet (JVal.obj [("mode", JVal.str "shelf"),
        ("hash", JVal.obj [("alg", JVal.str "sha256"), ("value", JVal.str "abc")]),
        ("receiptId", JVal.str "SS-XXXX-YYYY-ZZZZ")]) "hash") "value") = true
    ∧ jsGet (jsGet (createReceipt id (fun _ => "unavailable")
          ⟨JVal.str "view", [], JVal.obj [], "D", none, "v"⟩ "t" "SS-TEST") "hash") "value"
        = JVal.str (id (canonicalStringify (verifyPayload (createReceipt id
            (fun _ => "unavailable") ⟨JVal.str "view", [], JVal.obj [], "D", none, "v"⟩
            "t" "SS-TEST"))))
    ∧ (verifyReceipt id (JVal.obj [("mode", JVal.str "shelf"),
          ("hash", JVal.obj [("alg", JVal.str "sha256"), ("value", JVal.str "abc")]),
          ("receiptId", JVal.str "SS-XXXX-YYYY-ZZZZ")])).computedHash
        = some (id (canonicalStringify (JVal.obj (stripHashFields
            [("mode", JVal.str "shelf"),
             ("hash", JVal.obj [("alg", JVal.str "sha256"), ("value", JVal.str "abc")]),
             ("receiptId", JVal.str "SS-XXXX-YYYY-ZZZZ")])))) :=
  ⟨by decide,
   (claim_C5_hash_exclusion id (fun _ => "unavailable")
      ⟨JVal.str "view", [], JVal.obj [], "D", none, "v"⟩ "t" "SS-TEST"
      [("mode", JVal.str "shelf"),
       ("hash", JVal.obj [("alg", JVal.str "sha256"), ("value", JVal.str "abc")]),
       ("receiptId", JVal.str "SS-XXXX-YYYY-ZZZZ")] (by decide)).1,
   (claim_C5_hash_exclusion id (fun _ => "unavailable")
      ⟨JVal.str "view", [], JVal.obj [], "D", none, "v"⟩ "t" "SS-TEST"
      [("mode", JVal.str "shelf"),
       ("hash", JVal.obj [("alg", JVal.str "sha256"), ("value", JVal.str "abc")]),
       ("receiptId", JVal.str "SS-XXXX-YYYY-ZZZZ")] (by decide)).2⟩

theorem sextetChar_facts : ∀ n, n < 64 →
    charSextet (sextetChar n) = some n
    ∧ sextetChar n ≠ '='
    ∧ isB64WS (sextetChar n) = false
    ∧ urlEncChar (sextetChar n) ≠ '='
    ∧ urlDecChar (urlEncChar (sextetChar n)) = sextetChar n := by decide

theorem encodeB64_structure : ∀ bytes : List Nat, (∀ x ∈ bytes, x < 256) →
    ∃ sexts r, encodeB64 bytes = sexts.map sextetChar ++ List.replicate r '='
      ∧ r ≤ 2 ∧ (∀ s ∈ sexts, s < 64) ∧ sextetsToBytes sexts = bytes
      ∧ (sexts.length + r) % 4 = 0
  | [], _ => ⟨[], 0, rfl, by omega, by simp, rfl, rfl⟩
  | [a], h => by
      have ha : a < 256 := h a (by simp)
      refine ⟨[a / 4, a % 4 * 16], 2, rfl, by omega, ?_, ?_, by simp⟩
      · intro s hs
        simp only [List.mem_cons, List.mem_singleton, List.not_mem_nil, or_false] at hs
        rcases hs with h1 | h1 <;> subst h1 <;> omega
      · show [a / 4 * 4 + a % 4 * 16 / 16] = [a]
        have : a / 4 * 4 + a % 4 * 16 / 16 = a := by omega
        rw [this]
  | [a, b], h => by
      have ha : a < 256 := h a (by simp)
      have hb : b < 256 := h b (by simp)
      refine ⟨[a / 4, a % 4 * 16 + b / 16, b % 16 * 4], 1, rfl, by omega, ?_, ?_, by simp⟩
      · intro s hs
        simp only [List.mem_cons, List.mem_singleton, List.not_mem_nil, or_false] at hs
        rcases hs with h1 | h1 | h1 <;> subst h1 <;> omega
      · show [a / 4 * 4 + (a % 4 * 16 + b / 16) / 16,
              (a % 4 * 16 + b / 16) % 16 * 16 + b % 16 * 4 / 4] = [a, b]
        have e1 : a / 4 * 4 + (a % 4 * 16 + b / 16) / 16 = a := by omega
        have e2 : (a % 4 * 16 + b / 16) % 16 * 16 + b % 16 * 4 / 4 = b := by omega
        rw [e1, e2]
  | a :: b :: c :: rest, h => by
      have ha : a < 256 := h a (by simp)
      have hb : b < 256 := h b (by simp)
      have hc : c < 256 := h c (by simp)
      obtain ⟨sexts, r, he, hr, hlt, hsb, hm⟩ :=
        encodeB64_structure rest (fun x hx => h x (by simp [hx]))
      refine ⟨a / 4 :: (a % 4 * 16 + b / 16) :: (b % 16 * 4 + c / 64) :: c % 64 :: sexts,
        r, ?_, hr, ?_, ?_, ?_⟩
      · show sextetChar (a / 4) :: sextetChar (a % 4 * 16 + b / 16) ::
            sextetChar (b % 16 * 4 + c / 64) :: sextetChar (c % 64) :: encodeB64 rest = _
        rw [he]
        simp [List.map_cons]
      · intro s hs
        simp only [List.mem_cons] at hs
        rcases hs with h1 | h1 | h1 | h1 | h1
        · subst h1; omega
        · subst h1; omega
        · subst h1; omega
        · subst h1; omega
        · exact hlt s h1
      · show (a / 4 * 4 + (a % 4 * 16 + b / 16) / 16) ::
            ((a % 4 * 16 + b / 16) % 16 * 16 + (b % 16 * 4 + c / 64) / 4) ::
            ((b % 16 * 4 + c / 64) % 4 * 64 + c % 64) :: sextetsToBytes sexts
            = a :: b :: c :: rest
        have e1 : a / 4 * 4 + (a % 4 * 16 + b / 16) / 16 = a := by omega
        have e2 : (a % 4 * 16 + b / 16) % 16 * 16 + (b % 16 * 4 + c / 64) / 4 = b := by omega
        have e3 : (b % 16 * 4 + c / 64) % 4 * 64 + c % 64 = c := by omega
        rw [e1, e2, e3, hsb]
      · simp only [List.length_cons]
        omega

theorem stripHashFields_cons (k : String) (v : JVal) (rest : List (String × JVal)) :
    stripHashFields ((k, v) :: rest)
      = if ((k != "hash") && (k != "receiptId")) = true then (k, v) :: stripHashFields rest
        else stripHashFields rest := by
  simp only [stripHashFields, List.filter_cons]

theorem lookup_skips_stripped :
    ∀ fs : List (String × JVal), stripHashFields fs = fs →
      ∀ l2 : List (String × JVal),
        List.lookup "hash" (fs ++ l2) = List.lookup "hash" l2
        ∧ List.lookup "receiptId" (fs ++ l2) = List.lookup "receiptId" l2 := by
  intro fs
  induction fs with
  | nil => exact fun _ l2 => ⟨rfl, rfl⟩
  | cons p rest ih =>
      obtain ⟨k, v⟩ := p
      intro h l2
      rw [stripHashFields_cons] at h
      by_cases hp : ((k != "hash") && (k != "receiptId")) = true
      · rw [if_pos hp] at h
        have hrest : stripHashFields rest = rest := by
          have := congrArg List.tail h
          simpa using this
        have hk1 : k ≠ "hash" := by
          intro hk
          rw [hk] at hp
          simp at hp
        have hk2 : k ≠ "receiptId" := by
          intro hk
          rw [hk] at hp
          simp at hp
        have hb1 : (("hash" : String) == k) = false := beq_eq_false_iff_ne.mpr (Ne.symm hk1)
        have hb2 : (("receiptId" : String) == k) = false := beq_eq_false_iff_ne.mpr (Ne.symm hk2)
        refine ⟨?_, ?_⟩
        · rw [List.cons_append]
          simp only [List.lookup, hb1]
          exact (ih hrest l2).1
        · rw [List.cons_append]
          simp only [List.lookup, hb2]
          exact (ih hrest l2).2
      · rw [if_neg hp] at h
        exfalso
        have hlen := congrArg List.length h
        have hle := List.length_filter_le
          (fun q : String × JVal => (q.1 != "hash") && (q.1 != "receiptId")) rest
        simp only [stripHashFields, List.length_cons] at hlen hle
        omega

theorem jsStrictEqStr_true_iff (s : String) (x : JVal) :
    jsStrictEqStr s x = true ↔ x = JVal.str s := by
  cases x
  case str t =>
    show (s == t) = true ↔ JVal.str t = JVal.str s
    rw [beq_iff_eq]
    exact ⟨fun h => by rw [h], fun h => ((JVal.str.injEq t s).mp h).symm⟩
  all_goals exact Iff.intro (fun h => Bool.noConfusion h) (fun h => JVal.noConfusion h)

/-- C7 (amended): verifier result structure.  When the `hash.value` field
is absent or falsy the verifier returns `valid = false` with reason
`"Missing hash"`, no digests in the result, and without recomputing any
digest (the result does not depend on the digest function).  Otherwise —
including for truthy values that are not any recognized digest shape,
which the source never checks for — it returns `valid = true` exactly
when the provided value equals the recomputed digest string under strict
(case-sensitive, type-sensitive) equality, with reason `"Hash verified"`
on match and `"Hash mismatch"` otherwise, and with both the computed and
the provided digests included in the result. -/
theorem claim_C7_verifier_result_structure (H H2 : String → String) (receipt : JVal) :
    ((jsTruthy receipt && jsTruthy (jsGet receipt "hash")
        && jsTruthy (jsGet (jsGet receipt "hash") "value")) = false →
      verifyReceipt H receipt
        = ⟨false, "Missing hash", none, none⟩
      ∧ verifyReceipt H receipt = verifyReceipt H2 receipt)
    ∧ ((jsTruthy receipt && jsTruthy (jsGet receipt "hash")
        && jsTruthy (jsGet (jsGet receipt "hash") "value")) = true →
      ((verifyReceipt H receipt).valid = true
        ↔ jsGet (jsGet receipt "hash") "value"
            = JVal.str (hashCanonicalJSON H (verifyPayload receipt)))
      ∧ (verifyReceipt H receipt).reason
          = (if (verifyReceipt H receipt).valid = true then "Hash verified"
             else "Hash mismatch")
      ∧ (verifyReceipt H receipt).computedHash
          = some (hashCanonicalJSON H (verifyPayload receipt))
      ∧ (verifyReceipt H receipt).providedHash
          = some (jsGet (jsGet receipt "hash") "value")) := by
  constructor
  · intro hc
    have e1 : verifyReceipt H receipt = ⟨false, "Missing hash", none, none⟩ := by
      rw [verifyReceipt, hc]
      simp
    have e2 : verifyReceipt H2 receipt = ⟨false, "Missing hash", none, none⟩ := by
      rw [verifyReceipt, hc]
      simp
    exact ⟨e1, e1.trans e2.symm⟩
  · intro hc
    have e : verifyReceipt H receipt =
        ⟨jsStrictEqStr (hashCanonicalJSON H (verifyPayload receipt))
            (jsGet (jsGet receipt "hash") "value"),
         if jsStrictEqStr (hashCanonicalJSON H (verifyPayload receipt))
              (jsGet (jsGet receipt "hash") "value") then "Hash verified"
         else "Hash mismatch",
         some (hashCanonicalJSON H (verifyPayload receipt)),
         some (jsGet (jsGet receipt "hash") "value")⟩ := by
      rw [verifyReceipt, hc]
      simp
    rw [e]
    exact ⟨jsStrictEqStr_true_iff _ _, rfl, rfl, rfl⟩

/-- C7 counterexample: a candidate whose `hash.value` is a truthy string
that is not any recognized digest shape is not rejected with reason
"missing hash"; the digest is recomputed and the verifier reports
`"Hash mismatch"`.  The last two conjuncts also record that the source's
reason strings are capitalized (`"Missing hash"`, `"Hash mismatch"`),
never the claim's lowercase `"missing hash"`. -/
theorem claim_C7_counterexample :
    (verifyReceipt id (JVal.obj [("hash",
        JVal.obj [("alg", JVal.str "sha256"),
                  ("value", JVal.str "not-a-digest")])])).reason = "Hash mismatch"
    ∧ ((verifyReceipt id (JVal.obj [("hash",
        JVal.obj [("alg", JVal.str "sha256"),
                  ("value", JVal.str "not-a-digest")])])).computedHash).isSome = true
    ∧ ("Hash mismatch" : String) ≠ "missing hash"
    ∧ ("Missing hash" : String) ≠ "missing hash" :=
  ⟨by decide, by decide, by decide, by decide⟩

theorem claim_C7_witness :
    ((jsTruthy JVal.null && jsTruthy (jsGet JVal.null "hash")
        && jsTruthy (jsGet (jsGet JVal.null "hash") "value")) = false
      ∧ verifyReceipt id JVal.null = ⟨false, "Missing hash", none, none⟩)
    ∧ ((jsTruthy (JVal.obj [("hash", JVal.obj [("value", JVal.str "x")])])
        && jsTruthy (jsGet (JVal.obj [("hash", JVal.obj [("value", JVal.str "x")])]) "hash")
        && jsTruthy (jsGet (jsGet (JVal.obj [("hash",
              JVal.obj [("value", JVal.str "x")])]) "hash") "value")) = true
      ∧ (verifyReceipt id (JVal.obj [("hash", JVal.obj [("value", JVal.str "x")])])).computedHash
          = some (hashCanonicalJSON id (verifyPayload
              (JVal.obj [("hash", JVal.obj [("value", JVal.str "x")])])))) :=
  ⟨⟨by decide, ((claim_C7_verifier_result_structure id id JVal.null).1 (by decide)).1⟩,
   ⟨by decide,
    (((claim_C7_verifier_result_structure id id
        (JVal.obj [("hash", JVal.obj [("value", JVal.str "x")])])).2 (by decide)).2.2).1⟩⟩

theorem verify_on_spliced (H : String → String) (fields2 : List (String × JVal))
    (hv rid : String) (hnohash : stripHashFields fields2 = fields2) :
    (verifyReceipt H (JVal.obj (fields2 ++
        [("hash", JVal.obj [("alg", JVal.str "sha256"), ("value", JVal.str hv)]),
         ("receiptId", JVal.str rid)]))).valid
      = ((hv != "") && (H (canonicalStringify (JVal.obj fields2)) == hv)) := by
  have hlk := (lookup_skips_stripped fields2 hnohash
    [("hash", JVal.obj [("alg", JVal.str "sha256"), ("value", JVal.str hv)]),
     ("receiptId", JVal.str rid)]).1
  have hget : jsGet (JVal.obj (fields2 ++
      [("hash", JVal.obj [("alg", JVal.str "sha256"), ("value", JVal.str hv)]),
       ("receiptId", JVal.str rid)])) "hash"
      = JVal.obj [("alg", JVal.str "sha256"), ("value", JVal.str hv)] := by
    show (List.lookup "hash" (fields2 ++ _)).getD JVal.undef = _
    rw [hlk]
    rfl
  have hval : jsGet (jsGet (JVal.obj (fields2 ++
      [("hash", JVal.obj [("alg", JVal.str "sha256"), ("value", JVal.str hv)]),
       ("receiptId", JVal.str rid)])) "hash") "value" = JVal.str hv := by
    rw [hget]
    rfl
  have hpayload : verifyPayload (JVal.obj (fields2 ++
      [("hash", JVal.obj [("alg", JVal.str "sha256"), ("value", JVal.str hv)]),
       ("receiptId", JVal.str rid)])) = JVal.obj fields2 := by
    show JVal.obj (stripHashFields (fields2 ++ _)) = JVal.obj fields2
    rw [show stripHashFields (fields2 ++
        [("hash", JVal.obj [("alg", JVal.str "sha256"), ("value", JVal.str hv)]),
         ("receiptId", JVal.str rid)]) = stripHashFields fields2 by
      simp [stripHashFields]]
    rw [hnohash]
  by_cases hv0 : hv = ""
  · subst hv0
    have hguard : jsTruthy (jsGet (jsGet (JVal.obj (fields2 ++
        [("hash", JVal.obj [("alg", JVal.str "sha256"), ("value", JVal.str "")]),
         ("receiptId", JVal.str rid)])) "hash") "value") = false := by
      rw [hval]
      rfl
    rw [verifyReceipt, hguard]
    simp
  · have hguard : jsTruthy (jsGet (jsGet (JVal.obj (fields2 ++
        [("hash", JVal.obj [("alg", JVal.str "sha256"), ("value", JVal.str hv)]),
         ("receiptId", JVal.str rid)])) "hash") "value") = true := by
      rw [hval]
      show (hv != "") = true
      simpa [bne_iff_ne] using hv0
    have h1 : jsTruthy (JVal.obj (fields2 ++
        [("hash", JVal.obj [("alg", JVal.str "sha256"), ("value", JVal.str hv)]),
         ("receiptId", JVal.str rid)])) = true := rfl
    have h2 : jsTruthy (jsGet (JVal.obj (fields2 ++
        [("hash", JVal.obj [("alg", JVal.str "sha256"), ("value", JVal.str hv)]),
         ("receiptId", JVal.str rid)])) "hash") = true := by
      rw [hget]
      rfl
    rw [verifyReceipt, h1, h2, hguard]
    simp only [Bool.and_self, if_true]
    have hbne : (hv != "") = true := by
      simpa [bne_iff_ne] using hv0
    rw [hbne, Bool.true_and]
    show jsStrictEqStr (hashCanonicalJSON H (verifyPayload (JVal.obj (fields2 ++
        [("hash", JVal.obj [("alg", JVal.str "sha256"), ("value", JVal.str hv)]),
         ("receiptId", JVal.str rid)]))))
        (jsGet (jsGet (JVal.obj (fields2 ++
          [("hash", JVal.obj [("alg", JVal.str "sha256"), ("value", JVal.str hv)]),
           ("receiptId", JVal.str rid)])) "hash") "value")
      = (H (canonicalStringify (JVal.obj fields2)) == hv)
    rw [hpayload, hval]
    rfl

/-- C3 (amended): tamper detection.  For a freshly built receipt, any
replacement of the hash-covered fields (everything except `hash` and
`receiptId`) whose digest differs from the stored digest — for example
appending one character to `filters.search_query` under a collision-free
digest — makes verification fail with `valid = false`.  Mutations that
leave the canonical serialization unchanged (such as replacing an
`undefined` field value by `null`, or a `NaN` by `Infinity`) produce the
same digest and are not detected. -/
theorem claim_C3_tamper_detection
    (H fetchHash : String → String) (opts : ReceiptOptions) (createdAt receiptId : String)
    (fields2 : List (String × JVal))
    (hnohash : stripHashFields fields2 = fields2)
    (hdiff : H (canonicalStringify (JVal.obj fields2))
        ≠ H (canonicalStringify (JVal.obj (payloadFields fetchHash opts createdAt)))) :
    (verifyReceipt H (JVal.obj (fields2 ++
        [("hash", jsGet (createReceipt H fetchHash opts createdAt receiptId) "hash"),
         ("receiptId", JVal.str receiptId)]))).valid = false := by
  have hhash : jsGet (createReceipt H fetchHash opts createdAt receiptId) "hash"
      = JVal.obj [("alg", JVal.str "sha256"),
          ("value", JVal.str (hashCanonicalJSON H
            (JVal.obj (payloadFields fetchHash opts createdAt))))] := rfl
  rw [hhash, verify_on_spliced H fields2 _ receiptId hnohash]
  have : (H (canonicalStringify (JVal.obj fields2))
      == hashCanonicalJSON H (JVal.obj (payloadFields fetchHash opts createdAt))) = false :=
    beq_eq_false_iff_ne.mpr hdiff
  rw [this, Bool.and_false]

/-- C3 counterexample: replacing a `filters` member whose value is
`undefined` by `null` is a mutation of a field other than `hash` and
`receiptId` (the observable value of `filters.q` changes), yet
verification of the mutated receipt still reports `valid = true`: the two
values canonicalize identically, so the recomputed digest equals the
stored one for any digest function. -/
theorem claim_C3_counterexample :
    jsGet (jsGet (createReceipt id (fun _ => "unavailable")
        ⟨JVal.str "view", [], JVal.obj [("q", JVal.undef)], "D", none, "v"⟩ "t" "SS-TEST")
        "filters") "q" = JVal.undef
    ∧ jsGet (jsGet (setField (createReceipt id (fun _ => "unavailable")
        ⟨JVal.str "view", [], JVal.obj [("q", JVal.undef)], "D", none, "v"⟩ "t" "SS-TEST")
        "filters" (JVal.obj [("q", JVal.null)])) "filters") "q" = JVal.null
    ∧ JVal.null ≠ JVal.undef
    ∧ canonicalStringify (JVal.obj [("q", JVal.null)])
        = canonicalStringify (JVal.obj [("q", JVal.undef)])
    ∧ (verifyReceipt id (setField (createReceipt id (fun _ => "unavailable")
        ⟨JVal.str "view", [], JVal.obj [("q", JVal.undef)], "D", none, "v"⟩ "t" "SS-TEST")
        "filters" (JVal.obj [("q", JVal.null)]))).valid = true :=
  ⟨rfl, rfl, fun h => JVal.noConfusion h, rfl, by decide⟩

theorem claim_C3_witness :
    (stripHashFields (payloadFields (fun _ => "unavailable")
        ⟨JVal.str "shelf", [JVal.str "id-1"],
         JVal.obj [("search_query", JVal.str "laborX")], "Test Collection", none, "v2.x"⟩
        "2024-01-01T00:00:00Z")
      = payloadFields (fun _ => "unavailable")
        ⟨JVal.str "shelf", [JVal.str "id-1"],
         JVal.obj [("search_query", JVal.str "laborX")], "Test Collection", none, "v2.x"⟩
        "2024-01-01T00:00:00Z"
    ∧ id (canonicalStringify (JVal.obj (payloadFields (fun _ => "unavailable")
        ⟨JVal.str "shelf", [JVal.str "id-1"],
         JVal.obj [("search_query", JVal.str "laborX")], "Test Collection", none, "v2.x"⟩
        "2024-01-01T00:00:00Z")))
      ≠ id (canonicalStringify (JVal.obj (payloadFields (fun _ => "unavailable")
        ⟨JVal.str "shelf", [JVal.str "id-1"],
         JVal.obj [("search_query", JVal.str "labor")], "Test Collection", none, "v2.x"⟩
        "2024-01-01T00:00:00Z"))))
    ∧ (verifyReceipt id (JVal.obj (payloadFields (fun _ => "unavailable")
        ⟨JVal.str "shelf", [JVal.str "id-1"],
         JVal.obj [("search_query", JVal.str "laborX")], "Test Collection", none, "v2.x"⟩
        "2024-01-01T00:00:00Z" ++
        [("hash", jsGet (createReceipt id (fun _ => "unavailable")
            ⟨JVal.str "shelf", [JVal.str "id-1"],
             JVal.obj [("search_query", JVal.str "labor")], "Test Collection", none, "v2.x"⟩
            "2024-01-01T00:00:00Z" "SS-AAAA-BBBB-CCCC") "hash"),
         ("receiptId", JVal.str "SS-AAAA-BBBB-CCCC")]))).valid = false :=
  ⟨⟨rfl, by decide⟩,
   claim_C3_tamper_detection id (fun _ => "unavailable")
     ⟨JVal.str "shelf", [JVal.str "id-1"],
      JVal.obj [("search_query", JVal.str "labor")], "Test Collection", none, "v2.x"⟩
     "2024-01-01T00:00:00Z" "SS-AAAA-BBBB-CCCC"
     (payloadFields (fun _ => "unavailable")
        ⟨JVal.str "shelf", [JVal.str "id-1"],
         JVal.obj [("search_query", JVal.str "laborX")], "Test Collection", none, "v2.x"⟩
        "2024-01-01T00:00:00Z")
     rfl (by decide)⟩

/-- C1 counterexample: with a key outside the basic multilingual plane,
the source's UTF-16 code-unit sort is not codepoint order: U+FF61 has the
smaller codepoint yet its member is rendered second, so the keys of the
output are not in ascending ordinal/codepoint order as the claim
states. -/
theorem claim_C1_counterexample :
    canonicalStringify (JVal.obj [("｡", JVal.null), ("𐀀", JVal.null)])
      = "\x7b\"𐀀\":null,\"｡\":null\x7d"
    ∧ '｡'.toNat < '𐀀'.toNat
    ∧ canonicalStringify (JVal.obj [("｡", JVal.null), ("𐀀", JVal.null)])
      ≠ "\x7b\"｡\":null,\"𐀀\":null\x7d" :=
  ⟨by decide, by decide, by decide⟩


theorem replaceChar_comp_enc (l : List Char) :
    replaceChar '/' '_' (replaceChar '+' '-' l) = l.map urlEncChar := by
  simp only [replaceChar, List.map_map]
  rfl

theorem replaceChar_comp_dec (l : List Char) :
    replaceChar '_' '/' (replaceChar '-' '+' l) = l.map urlDecChar := by
  simp only [replaceChar, List.map_map]
  rfl

theorem filterMap_charSextet (sexts : List Nat) (h : ∀ s ∈ sexts, s < 64) :
    (sexts.map sextetChar).filterMap charSextet = sexts := by
  induction sexts with
  | nil => rfl
  | cons s rest ih =>
      have hs := (sextetChar_facts s (h s (by simp))).1
      simp only [List.map_cons, List.filterMap_cons, hs]
      rw [ih (fun x hx => h x (by simp [hx]))]

theorem dropTrailingEq_of_no_eq (core : List Char) (hne : ∀ c ∈ core, c ≠ '=') :
    ∀ r, r ≤ 2 → dropTrailingEq (core ++ List.replicate r '=') = core := by
  have hlast : ¬ core.getLast? = some '=' := by
    intro hl
    exact hne '=' (List.mem_of_mem_getLast? hl) rfl
  intro r hr
  interval_cases r
  · show dropTrailingEq (core ++ []) = core
    rw [List.append_nil, dropTrailingEq, if_neg hlast]
  · show dropTrailingEq (core ++ ['=']) = core
    rw [dropTrailingEq, if_pos (List.getLast?_concat core)]
    simp only [List.dropLast_concat]
    rw [if_neg hlast]
  · show dropTrailingEq (core ++ ['=', '=']) = core
    have hsplit : core ++ ['=', '='] = (core ++ ['=']) ++ ['='] := by
      simp [List.append_assoc]
    rw [hsplit, dropTrailingEq, if_pos (List.getLast?_concat (core ++ ['=']))]
    simp only [List.dropLast_concat, List.getLast?_concat, if_pos]

theorem map_map_id_of (f g : Char → Char) :
    ∀ l : List Char, (∀ c ∈ l, g (f c) = c) → (l.map f).map g = l := by
  intro l
  induction l with
  | nil => intro _; rfl
  | cons c rest ih =>
      intro h
      simp only [List.map_cons]
      rw [h c (by simp), ih (fun x hx => h x (by simp [hx]))]

/-- C4: transport codec round trip.  For every byte sequence (each
element below 256), including the empty sequence, decoding the
base64url fragment produced by the byte-level encode of
`encodeReceiptToFragment` with the inverse stage of
`decodeReceiptFromFragment` recovers exactly the original bytes. -/
theorem claim_C4_transport_roundtrip (bytes : List Nat) (h : ∀ x ∈ bytes, x < 256) :
    decodeFragmentBytes (encodeBytesToFragment bytes) = some bytes := by
  obtain ⟨sexts, r, he, hr, hlt, hsb, hm⟩ := encodeB64_structure bytes h
  have hfacts : ∀ s ∈ sexts, charSextet (sextetChar s) = some s ∧ sextetChar s ≠ '='
      ∧ isB64WS (sextetChar s) = false ∧ urlEncChar (sextetChar s) ≠ '='
      ∧ urlDecChar (urlEncChar (sextetChar s)) = sextetChar s :=
    fun s hs => sextetChar_facts s (hlt s hs)
  have hfrag : encodeBytesToFragment bytes = (sexts.map sextetChar).map urlEncChar := by
    rw [encodeBytesToFragment, he, replaceChar_comp_enc, List.map_append]
    have hpadmap : (List.replicate r '=').map urlEncChar = List.replicate r '=' := by
      rw [List.map_replicate]
      rfl
    rw [hpadmap, List.filter_append]
    have hcore : ((sexts.map sextetChar).map urlEncChar).filter (fun c => c != '=')
        = (sexts.map sextetChar).map urlEncChar := by
      refine List.filter_eq_self.mpr ?_
      intro c hc
      obtain ⟨d, hd, rfl⟩ := List.mem_map.mp hc
      obtain ⟨s, hs, rfl⟩ := List.mem_map.mp hd
      simpa [bne_iff_ne] using (hfacts s hs).2.2.2.1
    have hpad : (List.replicate r '=').filter (fun c => c != '=') = [] := by
      refine List.filter_eq_nil_iff.mpr ?_
      intro c hc
      rw [List.eq_of_mem_replicate hc]
      simp
    rw [hcore, hpad, List.append_nil]
  rw [hfrag]
  simp only [decodeFragmentBytes]
  have hbase : replaceChar '_' '/' (replaceChar '-' '+'
      ((sexts.map sextetChar).map urlEncChar)) = sexts.map sextetChar := by
    rw [replaceChar_comp_dec]
    refine map_map_id_of urlEncChar urlDecChar _ ?_
    intro c hc
    obtain ⟨s, hs, rfl⟩ := List.mem_map.mp hc
    exact (hfacts s hs).2.2.2.2
  rw [hbase]
  have hlen : (sexts.map sextetChar).length = sexts.length := List.length_map _ _
  have hpadn : (4 - (sexts.map sextetChar).length % 4) % 4 = r := by
    rw [hlen]
    omega
  rw [hpadn]
  simp only [atobModel]
  have hws : (sexts.map sextetChar ++ List.replicate r '=').filter (fun c => !isB64WS c)
      = sexts.map sextetChar ++ List.replicate r '=' := by
    refine List.filter_eq_self.mpr ?_
    intro c hc
    rcases List.mem_append.mp hc with hc | hc
    · obtain ⟨s, hs, rfl⟩ := List.mem_map.mp hc
      rw [(hfacts s hs).2.2.1]
      rfl
    · rw [List.eq_of_mem_replicate hc]
      rfl
  rw [hws]
  have hlen2 : (sexts.map sextetChar ++ List.replicate r '=').length = sexts.length + r := by
    rw [List.length_append, hlen, List.length_replicate]
  rw [hlen2, if_pos hm]
  have hne : ∀ c ∈ sexts.map sextetChar, c ≠ '=' := by
    intro c hc
    obtain ⟨s, hs, rfl⟩ := List.mem_map.mp hc
    exact (hfacts s hs).2.1
  rw [dropTrailingEq_of_no_eq (sexts.map sextetChar) hne r hr]
  rw [hlen, if_neg (by omega)]
  have hany : (sexts.map sextetChar).any (fun c => (charSextet c).isNone) = false := by
    refine List.any_eq_false.mpr ?_
    intro c hc
    obtain ⟨s, hs, rfl⟩ := List.mem_map.mp hc
    rw [(hfacts s hs).1]
    simp
  rw [hany]
  simp only [Bool.false_eq_true, if_false]
  rw [filterMap_charSextet sexts hlt, hsb]

theorem urlDecChar_cases (c : Char) : urlDecChar c = c ∨ urlDecChar c = '+' ∨ urlDecChar c = '/' := by
  by_cases h1 : c = '-'
  · subst h1
    right
    left
    rfl
  · by_cases h2 : c = '_'
    · subst h2
      right
      right
      rfl
    · left
      show (let c1 := if c = '-' then '+' else c; if c1 = '_' then '/' else c1) = c
      rw [if_neg h1]
      exact if_neg h2

theorem isB64WS_urlDecChar (c : Char) (h : isB64WS c = false) : isB64WS (urlDecChar c) = false := by
  rcases urlDecChar_cases c with hc | hc | hc <;> rw [hc]
  · exact h
  · rfl
  · rfl

theorem urlDecChar_ne_eq (c : Char) (h : c ≠ '=') : urlDecChar c ≠ '=' := by
  rcases urlDecChar_cases c with hc | hc | hc <;> rw [hc]
  · exact h
  · decide
  · decide

theorem mem_dropTrailingEq {c : Char} {l : List Char} (hc : c ∈ l) (hne : c ≠ '=') :
    c ∈ dropTrailingEq l := by
  have key : ∀ m : List Char, c ∈ m → m.getLast? = some '=' → c ∈ m.dropLast := by
    intro m hm hl
    have hmne : m ≠ [] := by rintro rfl; cases hm
    have hsplit : m.dropLast ++ [m.getLast hmne] = m := List.dropLast_append_getLast hmne
    rw [← hsplit] at hm
    rcases List.mem_append.mp hm with h1 | h1
    · exact h1
    · exfalso
      have hlast : m.getLast hmne = '=' := by
        have h2 := List.getLast?_eq_getLast m hmne
        rw [h2] at hl
        exact Option.some.inj hl
      rw [List.mem_singleton] at h1
      exact hne (h1.trans hlast)
  simp only [dropTrailingEq]
  split_ifs with h1 h2
  · exact key _ (key _ hc h1) h2
  · exact key _ hc h1
  · exact hc

theorem atobModel_none_of_bad_char {c : Char} {l : List Char} (hc : c ∈ l)
    (hws : isB64WS c = false) (hinv : charSextet c = none) (hne : c ≠ '=') :
    atobModel l = none := by
  simp only [atobModel]
  have h1 : c ∈ l.filter (fun d => !isB64WS d) :=
    List.mem_filter.mpr ⟨hc, by rw [hws]; rfl⟩
  have h2 : c ∈ (if (l.filter (fun d => !isB64WS d)).length % 4 = 0
      then dropTrailingEq (l.filter (fun d => !isB64WS d))
      else l.filter (fun d => !isB64WS d)) := by
    split_ifs
    · exact mem_dropTrailingEq h1 hne
    · exact h1
  by_cases hsel : (l.filter (fun d => !isB64WS d)).length % 4 = 0
  · rw [if_pos hsel] at h2 ⊢
    split_ifs with ha hb
    · rfl
    · rfl
    · exact absurd (List.any_eq_true.mpr ⟨c, h2, by rw [hinv]; rfl⟩) hb
  · rw [if_neg hsel] at h2 ⊢
    split_ifs with ha hb
    · rfl
    · rfl
    · exact absurd (List.any_eq_true.mpr ⟨c, h2, by rw [hinv]; rfl⟩) hb

/-- C8 (amended): decode error handling.  The decode path never crashes:
every failure is surfaced as `none`.  A base64url-stage failure yields
`none`; a successful byte recovery whose payload the JSON stage rejects
yields `none`; any returned value comes from a fully successful
decode-then-parse pipeline.  But the stage rejects only what
forgiving-base64 rejects after the `-`/`_` restoration: a character that
is neither in the standard base64 alphabet, nor ASCII whitespace (which
`atob` strips), nor `=` forces `none`, as does a whitespace-free fragment
of length 1 mod 4.  Fragments containing `=`, `+`, `/`, or ASCII
whitespace — all outside the base64url alphabet and never produced by the
encoder — are NOT rejected and can decode silently to a value (see the
counterexample). -/
theorem claim_C8_decode_error_handling :
    (∀ (parse : List Nat → Option JVal) (frag : List Char),
        decodeFragmentBytes frag = none → decodeReceiptFromFragment parse frag = none)
    ∧ (∀ (parse : List Nat → Option JVal) (frag : List Char) (bs : List Nat),
        decodeFragmentBytes frag = some bs → parse bs = none →
          decodeReceiptFromFragment parse frag = none)
    ∧ (∀ (parse : List Nat → Option JVal) (frag : List Char) (v : JVal),
        decodeReceiptFromFragment parse frag = some v →
          ∃ bs, decodeFragmentBytes frag = some bs ∧ parse bs = some v)
    ∧ (∀ (frag : List Char) (c : Char), c ∈ frag → isB64WS c = false →
        charSextet (urlDecChar c) = none → c ≠ '=' → decodeFragmentBytes frag = none)
    ∧ (∀ frag : List Char, (∀ c ∈ frag, isB64WS c = false) → frag.length % 4 = 1 →
        decodeFragmentBytes frag = none) := by
  refine ⟨?_, ?_, ?_, ?_, ?_⟩
  · intro parse frag h
    simp [decodeReceiptFromFragment, h]
  · intro parse frag bs h hp
    simp [decodeReceiptFromFragment, h, hp]
  · intro parse frag v h
    simp only [decodeReceiptFromFragment] at h
    cases hd : decodeFragmentBytes frag with
    | none => rw [hd] at h; cases h
    | some bs => rw [hd] at h; exact ⟨bs, rfl, h⟩
  · intro frag c hc hws hinv hne
    simp only [decodeFragmentBytes]
    rw [replaceChar_comp_dec]
    exact atobModel_none_of_bad_char
      (List.mem_append_left _ (List.mem_map_of_mem urlDecChar hc))
      (isB64WS_urlDecChar c hws) hinv (urlDecChar_ne_eq c hne)
  · intro frag hws hlen
    simp only [decodeFragmentBytes]
    rw [replaceChar_comp_dec]
    have hlenm : (frag.map urlDecChar).length = frag.length := List.length_map _ _
    have hp : (4 - (frag.map urlDecChar).length % 4) % 4 = 3 := by
      rw [hlenm]
      omega
    rw [hp]
    simp only [atobModel]
    have hfil : ((frag.map urlDecChar) ++ List.replicate 3 '=').filter (fun d => !isB64WS d)
        = (frag.map urlDecChar) ++ List.replicate 3 '=' := by
      refine List.filter_eq_self.mpr ?_
      intro d hd
      rcases List.mem_append.mp hd with hd | hd
      · obtain ⟨e, he, rfl⟩ := List.mem_map.mp hd
        rw [isB64WS_urlDecChar e (hws e he)]
        rfl
      · rw [List.eq_of_mem_replicate hd]
        rfl
    rw [hfil]
    have hlen2 : ((frag.map urlDecChar) ++ List.replicate 3 '=').length = frag.length + 3 := by
      simp [hlenm]
    have hc0 : (frag.length + 3) % 4 = 0 := by omega
    rw [hlen2, if_pos hc0]
    have hdrop : dropTrailingEq ((frag.map urlDecChar) ++ List.replicate 3 '=')
        = (frag.map urlDecChar) ++ ['='] := by
      have hsplit : (frag.map urlDecChar) ++ List.replicate 3 '='
          = (((frag.map urlDecChar) ++ ['=']) ++ ['=']) ++ ['='] := by
        simp
      rw [hsplit, dropTrailingEq, if_pos (List.getLast?_concat _)]
      simp only [List.dropLast_concat]
      rw [if_pos (List.getLast?_concat _)]
    rw [hdrop]
    by_cases hl1 : ((frag.map urlDecChar) ++ ['=']).length % 4 = 1
    · rw [if_pos hl1]
    · rw [if_neg hl1]
      have hany : ((frag.map urlDecChar) ++ ['=']).any (fun d => (charSextet d).isNone) = true :=
        List.any_eq_true.mpr ⟨'=', List.mem_append_right _ (by simp), by decide⟩
      rw [hany]
      simp


theorem claim_C4_witness :
    (∀ x ∈ [0, 255, 77, 1], x < 256)
    ∧ decodeFragmentBytes (encodeBytesToFragment [0, 255, 77, 1]) = some [0, 255, 77, 1] :=
  ⟨by decide, claim_C4_transport_roundtrip [0, 255, 77, 1] (by decide)⟩

/-- C8 counterexample: inputs containing characters outside the base64url
alphabet decode successfully instead of failing with null.  `=` is
outside the alphabet (and no encoder output contains it), yet the
fragment `MQ==` passes the restoration stage unchanged, `atob` tolerates
its padding, and the bytes of `1` are recovered — a JSON-parsing stage
then returns a value derived from this malformed input.  ASCII spaces
and `+` are likewise outside the base64url alphabet yet decode silently
(`atob` strips whitespace and accepts `+`), refuting both the claim's
"fails on characters outside the base64url alphabet" and its "never
returns a value derived from a malformed input". -/
theorem claim_C8_counterexample :
    (charSextet '=' = none ∧ isB64WS '=' = false)
    ∧ decodeFragmentBytes ['M', 'Q', '=', '='] = some [49]
    ∧ decodeReceiptFromFragment
        (fun bs => if bs = [49] then some (JVal.num (JSNum.int 1)) else none)
        ['M', 'Q', '=', '='] = some (JVal.num (JSNum.int 1))
    ∧ (isB64WS ' ' = true ∧ charSextet ' ' = none)
    ∧ decodeFragmentBytes ['I', 'j', 'E', 'i', ' ', ' ', ' ', ' '] = some [34, 49, 34]
    ∧ decodeFragmentBytes ['I', 'n', '5', '+', 'I', 'g', '=', '='] = some [34, 126, 126, 34] :=
  ⟨⟨by decide, by decide⟩, by decide, rfl, ⟨by decide, by decide⟩, by decide, by decide⟩

theorem claim_C8_witness :
    ('$' ∈ ['$'] ∧ isB64WS '$' = false ∧ charSextet (urlDecChar '$') = none ∧ '$' ≠ '=')
    ∧ decodeFragmentBytes ['$'] = none
    ∧ decodeReceiptFromFragment (fun _ => none) ['$'] = none
    ∧ decodeFragmentBytes ['A', 'A'] = some [0]
    ∧ decodeReceiptFromFragment (fun _ => none) ['A', 'A'] = none :=
  ⟨⟨by decide, by decide, by decide, by decide⟩,
   claim_C8_decode_error_handling.2.2.2.1 ['$'] '$' (by decide) (by decide) (by decide)
     (by decide),
   claim_C8_decode_error_handling.1 (fun _ => none) ['$']
     (claim_C8_decode_error_handling.2.2.2.1 ['$'] '$' (by decide) (by decide) (by decide)
       (by decide)),
   by decide,
   claim_C8_decode_error_handling.2.1 (fun _ => none) ['A', 'A'] [0] (by decide) rfl⟩

theorem decDigit_isDigit (n : Nat) : (decDigit n).isDigit = true := by
  unfold decDigit
  split <;> rfl

theorem natDigitsAux_digits : ∀ fuel n : Nat,
    ((natDigitsAux fuel n).all (fun c => c.isDigit)) = true := by
  intro fuel
  induction fuel with
  | zero =>
      intro n
      simp [natDigitsAux, decDigit_isDigit]
  | succ fuel ih =>
      intro n
      rw [natDigitsAux]
      split_ifs with h
      · simp [decDigit_isDigit]
      · rw [List.all_append]
        simp [ih (n / 10), decDigit_isDigit]

theorem plainIntString_chars (i : Int) :
    ((plainIntString i).data.all (fun c => c.isDigit || c == '-')) = true := by
  have hall : ∀ n : Nat, ∀ c ∈ natDigits n, (c.isDigit || c == '-') = true := by
    intro n c hc
    have hd := natDigitsAux_digits n n
    rw [List.all_eq_true] at hd
    have := hd c hc
    rw [this]
    rfl
  unfold plainIntString
  by_cases hi : i < 0
  · rw [if_pos hi]
    show (('-' :: natDigits i.natAbs).all (fun c => c.isDigit || c == '-')) = true
    rw [List.all_cons]
    refine (Bool.and_eq_true _ _).mpr ⟨by decide, ?_⟩
    rw [List.all_eq_true]
    exact hall i.natAbs
  · rw [if_neg hi]
    show ((natDigits i.natAbs).all (fun c => c.isDigit || c == '-')) = true
    rw [List.all_eq_true]
    exact hall i.natAbs


/-- C6 (amended): number canonicalization.  Every finite integer-valued
number of magnitude at most 2^53 (the range on which every integer is an
exactly representable double) renders as a plain non-exponential decimal
string, whose characters are digits and an optional leading minus sign,
with no exponent marker; non-finite values (NaN and both infinities)
canonicalize to the literal `null` and the (total) serializer does not
throw on them.  Finite values of magnitude 10^21 and above render in the
host's exponential form instead. -/
theorem claim_C6_number_canonicalization :
    (∀ i : Int, i.natAbs ≤ 2 ^ 53 →
        canonicalStringify (JVal.num (JSNum.int i)) = plainIntString i
        ∧ ((plainIntString i).data.all (fun c => c.isDigit || c == '-')) = true
        ∧ 'e' ∉ (plainIntString i).data)
    ∧ canonicalStringify (JVal.num JSNum.nan) = "null"
    ∧ canonicalStringify (JVal.num JSNum.posInf) = "null"
    ∧ canonicalStringify (JVal.num JSNum.negInf) = "null" := by
  refine ⟨?_, rfl, rfl, rfl⟩
  intro i hi
  have hlt : i.natAbs < 10 ^ 21 := by
    have h2 : (2 : Nat) ^ 53 < 10 ^ 21 := by norm_num
    omega
  have hcanon : canonicalStringify (JVal.num (JSNum.int i)) = plainIntString i := by
    show jsNumToString i = plainIntString i
    rw [jsNumToString, if_pos hlt]
  have hchars := plainIntString_chars i
  refine ⟨hcanon, hchars, ?_⟩
  intro hmem
  rw [List.all_eq_true] at hchars
  exact absurd (hchars 'e' hmem) (by decide)

/-- C6 counterexample: the finite value 10^21 (an exactly representable
double) is not rendered as a non-exponential decimal string: the source's
`String(obj)` yields the exponential form. -/
theorem claim_C6_counterexample :
    canonicalStringify (JVal.num (JSNum.int (10 ^ 21))) = "1e+21"
    ∧ 'e' ∈ "1e+21".data :=
  ⟨by decide, by decide⟩

theorem claim_C6_witness :
    ((42 : Int).natAbs ≤ 2 ^ 53 ∧ ((-7 : Int).natAbs ≤ 2 ^ 53))
    ∧ canonicalStringify (JVal.num (JSNum.int 42)) = plainIntString 42
    ∧ canonicalStringify (JVal.num (JSNum.int (-7))) = plainIntString (-7) :=
  ⟨⟨by decide, by decide⟩,
   (claim_C6_number_canonicalization.1 42 (by decide)).1,
   (claim_C6_number_canonicalization.1 (-7) (by decide)).1⟩

/-- C9 (amended): on a value outside the supported set (function, symbol,
bigint), `canonicalStringify` does not fail loudly: the final fallthrough
silently renders the literal `null`, indistinguishable from a genuine
null.  Cyclic input is not representable in this inductive model; the
source has no cycle detection either (its recursion is purely structural
with no visited-set), so a cyclic object would recurse unboundedly rather
than fail fast with a clear error. -/
theorem claim_C9_unsupported_values_silent :
    ∀ tag : String, canonicalStringify (JVal.other tag) = "null"
      ∧ canonicalStringify (JVal.other tag) = canonicalStringify JVal.null :=
  fun _ => ⟨rfl, rfl⟩

/-- C9 counterexample: a function value (an unsupported value type) does
not make the serializer fail loudly and immediately; it produces the
normal output `null`, byte-identical to the serialization of a genuine
null. -/
theorem claim_C9_counterexample :
    canonicalStringify (JVal.other "function") = "null"
    ∧ canonicalStringify (JVal.other "function") = canonicalStringify JVal.null :=
  ⟨rfl, rfl⟩

/-- C10: a mapping key bound to an undefined value is retained and its
entry rendered as `"key":null` (standard JSON serialization and RFC 8785
would omit the member); consequently a receipt with a field explicitly
set to undefined canonicalizes — and, for any injective digest, hashes —
differently from the same receipt with the field absent. -/
theorem claim_C10_undefined_retained :
    (∀ (k : String) (rest : List (String × JVal)),
        canonicalStringify (JVal.obj ((k, JVal.undef) :: rest))
          = canonicalStringify (JVal.obj ((k, JVal.null) :: rest)))
    ∧ canonicalStringify (JVal.obj [("f", JVal.undef)]) = "\x7b\"f\":null\x7d"
    ∧ canonicalStringify (JVal.obj [("f", JVal.undef)]) ≠ canonicalStringify (JVal.obj [])
    ∧ (∀ H : String → String, Function.Injective H →
        hashCanonicalJSON H (JVal.obj [("f", JVal.undef)])
          ≠ hashCanonicalJSON H (JVal.obj [])) := by
  refine ⟨fun k rest => rfl, by decide, by decide, ?_⟩
  intro H hinj h
  exact absurd (hinj h) (by decide)

theorem claim_C10_witness :
    Function.Injective (id : String → String)
    ∧ hashCanonicalJSON id (JVal.obj [("f", JVal.undef)]) ≠ hashCanonicalJSON id (JVal.obj [])
    ∧ canonicalStringify (JVal.obj [("f", JVal.undef), ("g", JVal.bool true)])
        = canonicalStringify (JVal.obj [("f", JVal.null), ("g", JVal.bool true)]) :=
  ⟨fun _ _ h => h,
   claim_C10_undefined_retained.2.2.2 id (fun _ _ h => h),
   claim_C10_undefined_retained.1 "f" [("g", JVal.bool true)]⟩
